import Mathlib

/-!
# Verification of the audio-processing pipeline

Shallow embedding of the core of the `custom_ai_translator_suggestion`
repository:

* `ProcessingQueue` (src/middleware/static.middleware.js): a bounded
  concurrency, bounded capacity task queue, embedded as an explicit state
  machine.  Promises are modelled by recording, per admitted task, which of
  the disjoint outcomes (pending, in flight, processed, errored, dropped)
  it currently is in; the identity of the promise rejected with
  "Queue full, task dropped" is recorded in `rejectedFull`.
* `VADService` (src/services/SuggestionService.js, second module): quick
  energy check, WAV parsing and the voice-activity decision.  JavaScript
  doubles are modelled by exact rationals; the one square root in the code
  (`energy = sqrt(sumSquares/n)`) is handled by comparing squares, which is
  exactly equivalent over the reals for the non-negative thresholds the
  service is configured with.
* `SuggestionService` batching (`addTranscription` / `checkPauseTimeout`).
* The VAD gate of `AudioProcessor._processChunkInternal`
  (src/websocket/handlers/AudioProcessor.js): whether transcription is
  invoked for a chunk.
-/

namespace CustomAITranslator

/-! ## ProcessingQueue (src/middleware/static.middleware.js) -/

/-- State of a `ProcessingQueue`.  Queue items are identified by the order
in which they were enqueued (`nextId` is the id the next `enqueue` call will
use).  `queue` is the pending FIFO (head = oldest), `processing` the
in-flight set (as a list of distinct ids), and the `total*` fields mirror
`this.stats`.  `rejectedFull` records the ids whose promise was rejected
with `new Error('Queue full, task dropped')` by the overflow branch of
`enqueue`. -/
structure PQState where
  queue : List Nat
  processing : List Nat
  nextId : Nat
  totalQueued : Nat
  totalProcessed : Nat
  totalDropped : Nat
  totalErrors : Nat
  rejectedFull : List Nat
  deriving Repr, DecidableEq

/-- The state built by the `ProcessingQueue` constructor. -/
def PQState.init : PQState :=
  { queue := [], processing := [], nextId := 0, totalQueued := 0,
    totalProcessed := 0, totalDropped := 0, totalErrors := 0,
    rejectedFull := [] }

/-- `_processNext` up to its first suspension point (`await item.task()`):
if the in-flight set is below `maxConcurrent` and the queue is non-empty,
the head of the queue is shifted and added to the processing set.  The part
of `_processNext` that runs after the task settles is modelled by
`completeStep`. -/
def processNext (maxConcurrent : Nat) (s : PQState) : PQState :=
  if maxConcurrent ≤ s.processing.length then s
  else
    match s.queue with
    | [] => s
    | i :: rest => { s with queue := rest, processing := i :: s.processing }

/-- `enqueue(task, metadata)`: if `queue.length >= maxQueueSize`, increment
`totalDropped`, shift the oldest pending item and reject its promise
(guarded by `if (oldest)`, hence `head?.toList`); then push the new item,
increment `totalQueued`, and call `_processNext()`. -/
def enqueueStep (maxConcurrent maxQueueSize : Nat) (s : PQState) : PQState :=
  let s1 :=
    if maxQueueSize ≤ s.queue.length then
      { s with totalDropped := s.totalDropped + 1,
               rejectedFull := s.rejectedFull ++ s.queue.head?.toList,
               queue := s.queue.tail }
    else s
  let s2 :=
    { s1 with queue := s1.queue ++ [s1.nextId],
              nextId := s1.nextId + 1,
              totalQueued := s1.totalQueued + 1 }
  processNext maxConcurrent s2

/-- The continuation of `_processNext` after `await item.task()` settles for
the in-flight item `i`: the success/error counter is bumped, the item is
removed from the processing set in the `finally` block, and `_processNext()`
is re-triggered.  A completion event for an id that is not in flight does
nothing (it cannot occur in the JavaScript program). -/
def completeStep (maxConcurrent : Nat) (i : Nat) (ok : Bool) (s : PQState) :
    PQState :=
  if i ∈ s.processing then
    processNext maxConcurrent
      { s with processing := s.processing.erase i,
               totalProcessed := if ok then s.totalProcessed + 1 else s.totalProcessed,
               totalErrors := if ok then s.totalErrors else s.totalErrors + 1 }
  else s

/-- Events observable by a `ProcessingQueue`: an `enqueue` call, or the
settling (fulfilment or rejection) of an in-flight task.  `clear()` is not
an event here; the claims about reachable states assume it is never
invoked. -/
inductive PQEvent where
  | enq : PQEvent
  | complete (i : Nat) (ok : Bool) : PQEvent
  deriving Repr, DecidableEq

/-- One event step of the queue. -/
def pqStep (maxConcurrent maxQueueSize : Nat) (s : PQState) : PQEvent → PQState
  | .enq => enqueueStep maxConcurrent maxQueueSize s
  | .complete i ok => completeStep maxConcurrent i ok s

/-- The state reached from a fresh queue by a sequence of events. -/
def pqRun (maxConcurrent maxQueueSize : Nat) (evs : List PQEvent) : PQState :=
  evs.foldl (pqStep maxConcurrent maxQueueSize) PQState.init

/-- The capacity invariant of claim C1. -/
def PQBounded (maxConcurrent maxQueueSize : Nat) (s : PQState) : Prop :=
  s.processing.length ≤ maxConcurrent ∧ s.queue.length ≤ maxQueueSize

theorem processNext_bounded {mc mq : Nat} {s : PQState}
    (h : PQBounded mc mq s) : PQBounded mc mq (processNext mc s) := by
  obtain ⟨hp, hq⟩ := h
  unfold processNext
  split
  · exact ⟨hp, hq⟩
  · rename_i hlt
    match hs : s.queue with
    | [] => exact ⟨hp, hq⟩
    | i :: rest =>
      refine ⟨?_, ?_⟩
      · simpa using Nat.succ_le_of_lt (Nat.lt_of_not_le hlt)
      · simp only [hs, List.length_cons] at hq
        simpa using Nat.le_of_succ_le hq

theorem enqueueStep_bounded {mc mq : Nat} {s : PQState} (hmq : 1 ≤ mq)
    (h : PQBounded mc mq s) : PQBounded mc mq (enqueueStep mc mq s) := by
  obtain ⟨hp, hq⟩ := h
  unfold enqueueStep
  apply processNext_bounded
  dsimp only
  split
  · rename_i hfull
    constructor
    · simpa using hp
    · simp only [List.length_append, List.length_tail, List.length_cons,
        List.length_nil]
      have : s.queue.length = mq := Nat.le_antisymm hq hfull
      omega
  · rename_i hnot
    constructor
    · simpa using hp
    · simp only [List.length_append, List.length_cons, List.length_nil]
      have : s.queue.length < mq := Nat.lt_of_not_le hnot
      omega

theorem completeStep_bounded {mc mq : Nat} {i : Nat} {ok : Bool} {s : PQState}
    (h : PQBounded mc mq s) : PQBounded mc mq (completeStep mc i ok s) := by
  obtain ⟨hp, hq⟩ := h
  unfold completeStep
  split
  · apply processNext_bounded
    exact ⟨Nat.le_trans (s.processing.length_erase_le i) hp, hq⟩
  · exact ⟨hp, hq⟩

theorem pqStep_bounded {mc mq : Nat} {s : PQState} (hmq : 1 ≤ mq)
    (h : PQBounded mc mq s) (e : PQEvent) :
    PQBounded mc mq (pqStep mc mq s e) := by
  cases e with
  | enq => exact enqueueStep_bounded hmq h
  | complete i ok => exact completeStep_bounded h

theorem pqRun_bounded_aux {mc mq : Nat} (hmq : 1 ≤ mq) :
    ∀ (evs : List PQEvent) (s : PQState), PQBounded mc mq s →
      PQBounded mc mq (evs.foldl (pqStep mc mq) s) := by
  intro evs
  induction evs with
  | nil => intro s h; simpa using h
  | cons e rest ih =>
      intro s h
      simpa using ih _ (pqStep_bounded hmq h e)

theorem processNext_of_full {mc : Nat} {s : PQState}
    (h : mc ≤ s.processing.length) : processNext mc s = s := by
  unfold processNext
  rw [if_pos h]

theorem processNext_of_nil {mc : Nat} {s : PQState} (h : s.queue = []) :
    processNext mc s = s := by
  unfold processNext
  split
  · rfl
  · rw [h]

theorem processNext_of_cons {mc : Nat} {s : PQState} {i : Nat} {rest : List Nat}
    (h1 : s.processing.length < mc) (h2 : s.queue = i :: rest) :
    processNext mc s = { s with queue := rest, processing := i :: s.processing } := by
  unfold processNext
  rw [if_neg (Nat.not_le_of_lt h1), h2]

theorem enqueueStep_of_drop {mc mq : Nat} {s : PQState} {a : Nat} {t : List Nat}
    (hfull : mq ≤ s.queue.length) (hqe : s.queue = a :: t) :
    enqueueStep mc mq s = processNext mc
      { s with queue := t ++ [s.nextId],
               nextId := s.nextId + 1,
               totalQueued := s.totalQueued + 1,
               totalDropped := s.totalDropped + 1,
               rejectedFull := s.rejectedFull ++ [a] } := by
  unfold enqueueStep
  dsimp only
  rw [if_pos hfull, hqe]
  rfl

theorem enqueueStep_of_nodrop {mc mq : Nat} {s : PQState}
    (h : s.queue.length < mq) :
    enqueueStep mc mq s = processNext mc
      { s with queue := s.queue ++ [s.nextId],
               nextId := s.nextId + 1,
               totalQueued := s.totalQueued + 1 } := by
  unfold enqueueStep
  dsimp only
  rw [if_neg (Nat.not_le_of_lt h)]

/-! ### Claim C1 -/

/-- C1: for every `ProcessingQueue(maxConcurrent, maxQueueSize)` (with
`maxQueueSize ≥ 1`, the configuration surface the spec admits) and every
sequence of enqueue calls and task completions, the in-flight set never
holds more than `maxConcurrent` items, and the pending queue never exceeds
`maxQueueSize` items (the overflow branch of `enqueue` evicts the oldest
pending item before appending the new one). -/
theorem pq_bounds_invariant (mc mq : Nat) (hmq : 1 ≤ mq)
    (evs : List PQEvent) :
    (pqRun mc mq evs).processing.length ≤ mc ∧
    (pqRun mc mq evs).queue.length ≤ mq :=
  pqRun_bounded_aux hmq evs PQState.init
    (by constructor <;> simp [PQState.init])

theorem pq_bounds_invariant_witness :
    (1 : Nat) ≤ 2 ∧
    ((pqRun 1 2 [.enq, .enq, .enq, .enq, .complete 0 true, .enq]).processing.length ≤ 1 ∧
     (pqRun 1 2 [.enq, .enq, .enq, .enq, .complete 0 true, .enq]).queue.length ≤ 2) :=
  ⟨by decide, pq_bounds_invariant 1 2 (by decide) _⟩

/-! ### Claim C2 -/

/-- C2: an `enqueue` call made while the pending queue holds at least
`maxQueueSize` items removes exactly the oldest pending (not yet started)
item, rejects its promise with the queue-full error, increments
`totalDropped` by one, appends the new item, and attempts scheduling; an
`enqueue` made while the pending queue is below `maxQueueSize` evicts
nothing and changes no drop counter. -/
theorem pq_enqueue_overflow_policy (mc mq : Nat) (s : PQState)
    (hmq : 1 ≤ mq) :
    (∀ a t, s.queue = a :: t → mq ≤ s.queue.length →
      enqueueStep mc mq s = processNext mc
        { s with queue := t ++ [s.nextId],
                 nextId := s.nextId + 1,
                 totalQueued := s.totalQueued + 1,
                 totalDropped := s.totalDropped + 1,
                 rejectedFull := s.rejectedFull ++ [a] }) ∧
    (s.queue.length < mq →
      enqueueStep mc mq s = processNext mc
        { s with queue := s.queue ++ [s.nextId],
                 nextId := s.nextId + 1,
                 totalQueued := s.totalQueued + 1 }) := by
  constructor
  · intro a t hqe hfull
    exact enqueueStep_of_drop hfull hqe
  · intro h
    exact enqueueStep_of_nodrop h

theorem pq_enqueue_overflow_policy_witness :
    enqueueStep 1 2
      { queue := [5, 6], processing := [4], nextId := 7, totalQueued := 7,
        totalProcessed := 3, totalDropped := 0, totalErrors := 1,
        rejectedFull := [] }
    = processNext 1
      { queue := [6, 7], processing := [4], nextId := 8, totalQueued := 8,
        totalProcessed := 3, totalDropped := 1, totalErrors := 1,
        rejectedFull := [5] } :=
  (pq_enqueue_overflow_policy 1 2
    { queue := [5, 6], processing := [4], nextId := 7, totalQueued := 7,
      totalProcessed := 3, totalDropped := 0, totalErrors := 1,
      rejectedFull := [] } (by decide)).1 5 [6] rfl (by decide)

/-! ### Claim C3 -/

/-- The inductive invariant describing the state after any number of
`enqueue` calls from a fresh queue with no completions: the first
`maxConcurrent` admitted tasks go straight in flight, the next
`maxQueueSize` wait in the queue, and every further enqueue drops (and
rejects) exactly one older pending task. -/
def EnqOnlyInv (mc mq : Nat) (s : PQState) : Prop :=
  s.processing.length = min s.totalQueued mc ∧
  s.queue.length = min (s.totalQueued - mc) mq ∧
  s.totalDropped = s.totalQueued - (mc + mq) ∧
  s.rejectedFull.length = s.totalDropped

theorem enqOnlyInv_enqueue {mc mq : Nat} {s : PQState} (hmq : 1 ≤ mq)
    (h : EnqOnlyInv mc mq s) : EnqOnlyInv mc mq (enqueueStep mc mq s) := by
  obtain ⟨h1, h2, h3, h4⟩ := h
  by_cases hfull : mq ≤ s.queue.length
  · -- overflow: the queue is exactly full, so the oldest item is dropped
    have hlen : s.queue.length = mq := by omega
    cases hqe : s.queue with
    | nil =>
      rw [hqe] at hlen
      simp at hlen
      omega
    | cons a t =>
      have htl : t.length + 1 = mq := by
        rw [hqe] at hlen
        simpa using hlen
      have hkmc : mc + mq ≤ s.totalQueued := by omega
      have hproc : mc ≤ s.processing.length := by omega
      rw [enqueueStep_of_drop hfull hqe]
      rw [processNext_of_full (by simpa using hproc)]
      refine ⟨?_, ?_, ?_, ?_⟩ <;>
        simp only [List.length_append, List.length_cons, List.length_nil] <;>
        omega
  · push_neg at hfull
    by_cases hp : s.processing.length < mc
    · -- a free worker exists, so the queue must have been empty
      have hk : s.totalQueued < mc := by omega
      have hq0 : s.queue.length = 0 := by omega
      have hqe : s.queue = [] := List.length_eq_zero.mp hq0
      rw [enqueueStep_of_nodrop hfull]
      unfold processNext
      rw [if_neg (by simpa using hp)]
      simp only [hqe, List.nil_append]
      refine ⟨?_, ?_, ?_, ?_⟩ <;>
        simp only [List.length_cons, List.length_nil] <;>
        omega
    · -- all workers busy: the new item just waits in the queue
      push_neg at hp
      rw [enqueueStep_of_nodrop hfull]
      rw [processNext_of_full (by simpa using hp)]
      refine ⟨?_, ?_, ?_, ?_⟩ <;>
        simp only [List.length_append, List.length_cons, List.length_nil] <;>
        omega

theorem processNext_totalQueued (mc : Nat) (s : PQState) :
    (processNext mc s).totalQueued = s.totalQueued := by
  unfold processNext
  split
  · rfl
  · cases hq : s.queue
    · rfl
    · rfl

theorem enqueueStep_totalQueued {mc mq : Nat} (s : PQState) :
    (enqueueStep mc mq s).totalQueued = s.totalQueued + 1 := by
  unfold enqueueStep
  rw [processNext_totalQueued]
  dsimp only
  split <;> rfl

theorem enqOnlyInv_foldl {mc mq : Nat} (hmq : 1 ≤ mq) :
    ∀ (N : Nat) (s : PQState), EnqOnlyInv mc mq s →
      EnqOnlyInv mc mq (List.foldl (pqStep mc mq) s (List.replicate N .enq)) ∧
      (List.foldl (pqStep mc mq) s (List.replicate N .enq)).totalQueued =
        s.totalQueued + N := by
  intro N
  induction N with
  | zero => intro s h; exact ⟨by simpa using h, by simp⟩
  | succ n ih =>
      intro s h
      rw [List.replicate_succ, List.foldl_cons]
      have hstep : pqStep mc mq s .enq = enqueueStep mc mq s := rfl
      rw [hstep]
      obtain ⟨hinv, hcount⟩ := ih (enqueueStep mc mq s) (enqOnlyInv_enqueue hmq h)
      refine ⟨hinv, ?_⟩
      rw [hcount, enqueueStep_totalQueued]
      omega

/-- C3 (amended): if `N` tasks are enqueued into a fresh
`ProcessingQueue(maxConcurrent, maxQueueSize)` (with `maxQueueSize ≥ 1`)
before any of them completes, exactly `N - (maxQueueSize + maxConcurrent)`
of them are dropped (truncated at 0) — the first `maxConcurrent` admissions
move straight in flight and do not occupy queue slots — and each dropped
task's promise is rejected. -/
theorem pq_drop_count (mc mq N : Nat) (hmq : 1 ≤ mq) :
    (pqRun mc mq (List.replicate N .enq)).totalDropped = N - (mc + mq) ∧
    (pqRun mc mq (List.replicate N .enq)).rejectedFull.length =
      N - (mc + mq) := by
  have hinit : EnqOnlyInv mc mq PQState.init := by
    refine ⟨?_, ?_, ?_, ?_⟩ <;> simp [PQState.init]
  obtain ⟨⟨_, _, h3, h4⟩, hcount⟩ := enqOnlyInv_foldl hmq N PQState.init hinit
  have hq : (List.foldl (pqStep mc mq) PQState.init
      (List.replicate N .enq)).totalQueued = N := by
    simpa [PQState.init] using hcount
  rw [hq] at h3
  exact ⟨h3, h4.trans h3⟩

theorem pq_drop_count_witness :
    (1 : Nat) ≤ 3 ∧
    (pqRun 2 3 (List.replicate 9 .enq)).totalDropped = 9 - (2 + 3) ∧
    (pqRun 2 3 (List.replicate 9 .enq)).rejectedFull.length = 9 - (2 + 3) :=
  ⟨by decide, pq_drop_count 2 3 9 (by decide)⟩

/-- C3 counterexample: with `maxConcurrent = 2`, `maxQueueSize = 3` and
`N = 4 > maxQueueSize` tasks enqueued before any completes, the code drops
0 tasks, not the `N - maxQueueSize = 1` the claim states (the first two
admissions are in flight, not in the queue). -/
theorem pq_drop_count_cex :
    (pqRun 2 3 (List.replicate 4 .enq)).totalDropped ≠ 4 - 3 := by decide

/-! ### Claim C10 -/

/-- The counter identity of claim C10: every admitted task is, at any
instant, exactly one of pending, in flight, processed, errored, or
dropped. -/
def PQAccounted (s : PQState) : Prop :=
  s.totalQueued =
    s.queue.length + s.processing.length + s.totalProcessed +
      s.totalErrors + s.totalDropped

theorem processNext_accounted {mc : Nat} {s : PQState}
    (h : PQAccounted s) : PQAccounted (processNext mc s) := by
  unfold processNext
  split
  · exact h
  · match hqe : s.queue with
    | [] => exact h
    | i :: rest =>
      unfold PQAccounted at h ⊢
      simp only [List.length_cons] at h ⊢
      rw [hqe] at h
      simp only [List.length_cons] at h
      omega

theorem pqStep_accounted {mc mq : Nat} {s : PQState} (hmq : 1 ≤ mq)
    (h : PQAccounted s) (e : PQEvent) : PQAccounted (pqStep mc mq s e) := by
  cases e with
  | enq =>
      show PQAccounted (enqueueStep mc mq s)
      by_cases hfull : mq ≤ s.queue.length
      · match hqe : s.queue with
        | [] =>
          rw [hqe] at hfull
          simp at hfull
          omega
        | a :: t =>
          rw [enqueueStep_of_drop hfull hqe]
          apply processNext_accounted
          unfold PQAccounted at h ⊢
          rw [hqe] at h
          simp only [List.length_append, List.length_cons, List.length_nil] at h ⊢
          omega
      · push_neg at hfull
        rw [enqueueStep_of_nodrop hfull]
        apply processNext_accounted
        unfold PQAccounted at h ⊢
        simp only [List.length_append, List.length_cons, List.length_nil] at h ⊢
        omega
  | complete i ok =>
      show PQAccounted (completeStep mc i ok s)
      unfold completeStep
      split
      · rename_i hmem
        apply processNext_accounted
        unfold PQAccounted at h ⊢
        have herase := List.length_erase_of_mem hmem
        have hpos : 1 ≤ s.processing.length := List.length_pos.mpr
          (List.ne_nil_of_mem hmem)
        cases ok <;> simp [herase] <;> omega
      · exact h

/-- C10: in every state reachable from a fresh `ProcessingQueue` (with
`maxQueueSize ≥ 1`) by enqueues and task completions, with `clear()` never
invoked, `stats.totalQueued = queue.length + processing.size +
stats.totalProcessed + stats.totalErrors + stats.totalDropped`. -/
theorem pq_counter_identity (mc mq : Nat) (hmq : 1 ≤ mq)
    (evs : List PQEvent) :
    (pqRun mc mq evs).totalQueued =
      (pqRun mc mq evs).queue.length + (pqRun mc mq evs).processing.length +
        (pqRun mc mq evs).totalProcessed + (pqRun mc mq evs).totalErrors +
        (pqRun mc mq evs).totalDropped := by
  have haux : ∀ (l : List PQEvent) (s : PQState), PQAccounted s →
      PQAccounted (List.foldl (pqStep mc mq) s l) := by
    intro l
    induction l with
    | nil => intro s h; simpa using h
    | cons e rest ih =>
        intro s h
        simpa using ih _ (pqStep_accounted hmq h e)
  exact haux evs PQState.init (by simp [PQAccounted, PQState.init])

theorem pq_counter_identity_witness :
    (1 : Nat) ≤ 2 ∧
    ((pqRun 1 2 [.enq, .enq, .enq, .enq, .complete 0 false, .enq]).totalQueued =
      (pqRun 1 2 [.enq, .enq, .enq, .enq, .complete 0 false, .enq]).queue.length +
        (pqRun 1 2 [.enq, .enq, .enq, .enq, .complete 0 false, .enq]).processing.length +
        (pqRun 1 2 [.enq, .enq, .enq, .enq, .complete 0 false, .enq]).totalProcessed +
        (pqRun 1 2 [.enq, .enq, .enq, .enq, .complete 0 false, .enq]).totalErrors +
        (pqRun 1 2 [.enq, .enq, .enq, .enq, .complete 0 false, .enq]).totalDropped) :=
  ⟨by decide, pq_counter_identity 1 2 (by decide) _⟩

/-! ## SuggestionService batching (src/services/SuggestionService.js) -/

/-- `this.minBatchSize = 30`. -/
def minBatchSize : Nat := 30

/-- `this.pauseThreshold = 5000` (ms). -/
def pauseThreshold : Int := 5000

/-- JavaScript `String.prototype.trim()`: strips leading and trailing
whitespace.  Embedded structurally over the character list (JS trims the
Unicode whitespace class; `Char.isWhitespace` is its Lean counterpart). -/
def jsTrim (s : String) : String :=
  ⟨((s.data.dropWhile Char.isWhitespace).reverse.dropWhile
      Char.isWhitespace).reverse⟩

/-- JavaScript `Array.prototype.join(' ')`. -/
def joinSp : List String → String
  | [] => ""
  | [x] => x
  | x :: xs => x ++ " " ++ joinSp xs

/-- The batching state of `SuggestionService`: the fragment buffer and the
timestamp (ms) of the last accepted fragment (`null` → `none`). -/
structure BatcherState where
  transcriptionBuffer : List String
  lastTranscriptionTime : Option Int
  deriving Repr, DecidableEq

def BatcherState.init : BatcherState :=
  { transcriptionBuffer := [], lastTranscriptionTime := none }

/-- `_hasCompleteSentence`: the regex `/[.!?]\s*$/` tested on `text.trim()`.
Trimming removes all trailing whitespace, so the regex matches exactly when
the trimmed text is non-empty and its last character is `.`, `!` or `?` —
i.e. the original text ends with that punctuation optionally followed by
whitespace. -/
def hasCompleteSentence (text : String) : Bool :=
  let u := (jsTrim text).data
  !u.isEmpty &&
    (u.getLast? == some '.' || u.getLast? == some '!' || u.getLast? == some '?')

/-- `_shouldSendBatch(bufferText)`. -/
def shouldSendBatch (bufferText : String) : Bool :=
  if bufferText.length < minBatchSize then false
  else if 100 ≤ bufferText.length then true
  else if hasCompleteSentence bufferText then true
  else false

/-- `addTranscription(transcribedText)` at time `now`: returns the batch to
send (or `none`) together with the updated state.  (`!transcribedText` and
`trim().length < 5` collapse to the same guard, since an empty string trims
to length 0.) -/
def addTranscription (now : Int) (transcribedText : String) (s : BatcherState) :
    Option String × BatcherState :=
  if (jsTrim transcribedText).length < 5 then (none, s)
  else
    let buf := s.transcriptionBuffer ++ [jsTrim transcribedText]
    let bufferText := joinSp buf
    if shouldSendBatch bufferText then
      (some bufferText,
       { transcriptionBuffer := [], lastTranscriptionTime := some now })
    else
      (none, { transcriptionBuffer := buf, lastTranscriptionTime := some now })

/-- `checkPauseTimeout()` at time `now`. -/
def checkPauseTimeout (now : Int) (s : BatcherState) :
    Option String × BatcherState :=
  if s.transcriptionBuffer = [] then (none, s)
  else
    match s.lastTranscriptionTime with
    | none => (none, s)
    | some t =>
      if pauseThreshold ≤ now - t then
        let bufferText := joinSp s.transcriptionBuffer
        if minBatchSize ≤ bufferText.length then
          (some bufferText, BatcherState.init)
        else
          (none, BatcherState.init)
      else (none, s)

/-! ### Claim C7 -/

/-- C7: a call to `addTranscription` with a fragment whose trimmed length is
at least 5 appends the fragment and returns a non-null batch exactly when
the space-joined buffer text reaches `minBatchSize` and either reaches 100
characters or ends in `.`, `!` or `?` (optionally followed by whitespace,
which is what the code's trim-then-regex test checks); the returned value is
exactly the joined text and the buffer is empty immediately afterwards;
otherwise the call returns `none` and the buffer retains the fragment.
Fragments with trimmed length under 5 are ignored. -/
theorem batcher_add_flush (now : Int) (text : String) (s : BatcherState) :
    ((jsTrim text).length < 5 → addTranscription now text s = (none, s)) ∧
    (5 ≤ (jsTrim text).length →
      ((addTranscription now text s).1 ≠ none ↔
        (minBatchSize ≤
            (joinSp (s.transcriptionBuffer ++ [jsTrim text])).length ∧
          (100 ≤ (joinSp (s.transcriptionBuffer ++ [jsTrim text])).length ∨
            hasCompleteSentence
              (joinSp (s.transcriptionBuffer ++ [jsTrim text])) = true))) ∧
      ((addTranscription now text s).1 ≠ none →
        (addTranscription now text s).1 =
          some (joinSp (s.transcriptionBuffer ++ [jsTrim text])) ∧
        (addTranscription now text s).2.transcriptionBuffer = []) ∧
      ((addTranscription now text s).1 = none →
        (addTranscription now text s).2.transcriptionBuffer =
          s.transcriptionBuffer ++ [jsTrim text])) := by
  constructor
  · intro h
    unfold addTranscription
    rw [if_pos h]
  · intro h
    have hnot : ¬ (jsTrim text).length < 5 := Nat.not_lt_of_le h
    unfold addTranscription shouldSendBatch
    rw [if_neg hnot]
    dsimp only
    by_cases hsmall :
        (joinSp (s.transcriptionBuffer ++ [jsTrim text])).length <
          minBatchSize
    · rw [if_pos hsmall, if_neg (by simp)]
      refine ⟨?_, ?_, ?_⟩
      · simp
        omega
      · simp
      · intro _
        rfl
    · rw [if_neg hsmall]
      push_neg at hsmall
      by_cases hbig :
          100 ≤ (joinSp (s.transcriptionBuffer ++ [jsTrim text])).length
      · rw [if_pos hbig, if_pos (by simp)]
        refine ⟨?_, ?_, ?_⟩
        · simp [hsmall, hbig]
        · intro _
          exact ⟨rfl, rfl⟩
        · intro hcontra
          simp at hcontra
      · rw [if_neg hbig]
        by_cases hsent :
            hasCompleteSentence
              (joinSp (s.transcriptionBuffer ++ [jsTrim text])) = true
        · rw [if_pos hsent, if_pos (by simp)]
          refine ⟨?_, ?_, ?_⟩
          · simp [hsmall, hsent]
          · intro _
            exact ⟨rfl, rfl⟩
          · intro hcontra
            simp at hcontra
        · rw [if_neg hsent, if_neg (by simp)]
          refine ⟨?_, ?_, ?_⟩
          · simp [hbig, hsent]
          · simp
          · intro _
            rfl

theorem batcher_add_flush_witness :
    (5 ≤ (jsTrim "This batch ends with a full sentence stop.").length) ∧
    ((addTranscription 1000 "This batch ends with a full sentence stop."
        BatcherState.init).1 ≠ none) ∧
    (addTranscription 1000 "This batch ends with a full sentence stop."
        BatcherState.init).1 =
      some (joinSp (BatcherState.init.transcriptionBuffer ++
        [jsTrim "This batch ends with a full sentence stop."])) ∧
    (addTranscription 1000 "This batch ends with a full sentence stop."
        BatcherState.init).2.transcriptionBuffer = [] := by
  have h := (batcher_add_flush 1000
    "This batch ends with a full sentence stop." BatcherState.init).2 (by decide)
  have hne : (addTranscription 1000 "This batch ends with a full sentence stop."
      BatcherState.init).1 ≠ none := h.1.mpr (by decide)
  exact ⟨by decide, hne, (h.2.1 hne).1, (h.2.1 hne).2⟩

/-! ### Claim C8 -/

/-- C8: `checkPauseTimeout` returns a non-null batch exactly when the buffer
is non-empty, at least `pauseThreshold` ms have elapsed since the last
accepted fragment, and the joined buffer reaches `minBatchSize`; it then
returns the joined text and empties the buffer.  When the pause threshold is
exceeded but the joined text is shorter than `minBatchSize`, the buffer is
discarded (emptied) and `none` is returned.  For an empty buffer the call
returns `none` and changes nothing. -/
theorem batcher_pause_timeout (now : Int) (s : BatcherState) :
    (s.transcriptionBuffer = [] → checkPauseTimeout now s = (none, s)) ∧
    (∀ t0, s.lastTranscriptionTime = some t0 →
      ((checkPauseTimeout now s).1 ≠ none ↔
        (s.transcriptionBuffer ≠ [] ∧ pauseThreshold ≤ now - t0 ∧
          minBatchSize ≤ (joinSp s.transcriptionBuffer).length)) ∧
      ((checkPauseTimeout now s).1 ≠ none →
        (checkPauseTimeout now s).1 =
          some (joinSp s.transcriptionBuffer) ∧
        (checkPauseTimeout now s).2.transcriptionBuffer = []) ∧
      (s.transcriptionBuffer ≠ [] → pauseThreshold ≤ now - t0 →
        (joinSp s.transcriptionBuffer).length < minBatchSize →
        (checkPauseTimeout now s).1 = none ∧
        (checkPauseTimeout now s).2.transcriptionBuffer = [])) := by
  constructor
  · intro h
    unfold checkPauseTimeout
    rw [if_pos h]
  · intro t0 ht
    by_cases hbuf : s.transcriptionBuffer = []
    · unfold checkPauseTimeout
      rw [if_pos hbuf]
      refine ⟨?_, ?_, ?_⟩
      · simp [hbuf]
      · simp
      · intro hc
        exact absurd hbuf hc
    · have heq : checkPauseTimeout now s =
          if pauseThreshold ≤ now - t0 then
            (if minBatchSize ≤ (joinSp s.transcriptionBuffer).length then
              (some (joinSp s.transcriptionBuffer), BatcherState.init)
            else (none, BatcherState.init))
          else (none, s) := by
        unfold checkPauseTimeout
        rw [if_neg hbuf, ht]
      rw [heq]
      by_cases hpause : pauseThreshold ≤ now - t0
      · rw [if_pos hpause]
        by_cases hsize :
            minBatchSize ≤ (joinSp s.transcriptionBuffer).length
        · rw [if_pos hsize]
          refine ⟨?_, ?_, ?_⟩
          · simp [hbuf, hpause, hsize]
          · intro _
            exact ⟨rfl, rfl⟩
          · intro _ _ hlt
            omega
        · rw [if_neg hsize]
          refine ⟨?_, ?_, ?_⟩
          · simp [hsize]
          · simp
          · intro _ _ _
            exact ⟨rfl, rfl⟩
      · rw [if_neg hpause]
        refine ⟨?_, ?_, ?_⟩
        · simp [hpause]
        · simp
        · intro _ hp
          exact absurd hp hpause

theorem batcher_pause_timeout_witness :
    ((checkPauseTimeout 6000
        { transcriptionBuffer := ["hello there my good friend, how are you"],
          lastTranscriptionTime := some 0 }).1 ≠ none) ∧
    (checkPauseTimeout 6000
        { transcriptionBuffer := ["hello there my good friend, how are you"],
          lastTranscriptionTime := some 0 }).1 =
      some (joinSp
        ["hello there my good friend, how are you"]) ∧
    (checkPauseTimeout 6000
        { transcriptionBuffer := ["hello there my good friend, how are you"],
          lastTranscriptionTime := some 0 }).2.transcriptionBuffer = [] := by
  have h := (batcher_pause_timeout 6000
    { transcriptionBuffer := ["hello there my good friend, how are you"],
      lastTranscriptionTime := some 0 }).2 0 rfl
  have hne := h.1.mpr ⟨by decide, by decide, by decide⟩
  exact ⟨hne, (h.2.1 hne).1, (h.2.1 hne).2⟩

/-! ## VADService (src/services/SuggestionService.js, second module)

Byte buffers are lists of naturals (< 256).  JavaScript numbers are exact
rationals here; the single square root in the service
(`energy = Math.sqrt(sumSquares / n)`) never surfaces: every use of
`energy` in a comparison `energy > t` / `energy < t` is embedded as the
exactly equivalent comparison of squares `energySq > t^2` / `energySq < t^2`
(equivalent over the reals whenever `t ≥ 0`, which holds for the service's
thresholds). -/

/-- A byte buffer (`Buffer` in Node).  Reads past the end yield 0 here; in
the embedded code every read is guarded by the same bounds check the
JavaScript performs, so the padding is never observed. -/
abbrev ByteBuf := List Nat

def byteAt (b : ByteBuf) (i : Nat) : Nat := b.getD i 0

/-- `buffer.readUInt32LE(i)`. -/
def readUInt32LE (b : ByteBuf) (i : Nat) : Nat :=
  byteAt b i + 256 * byteAt b (i + 1) + 65536 * byteAt b (i + 2) +
    16777216 * byteAt b (i + 3)

/-- `buffer.readInt16LE(i)` (two's complement). -/
def readInt16LE (b : ByteBuf) (i : Nat) : Int :=
  let v := byteAt b i + 256 * byteAt b (i + 1)
  if v < 32768 then (v : Int) else (v : Int) - 65536

/-- `buffer.toString('ascii', i, i+4)`, as the four byte values. -/
def chunkIdAt (b : ByteBuf) (i : Nat) : List Nat :=
  [byteAt b i, byteAt b (i + 1), byteAt b (i + 2), byteAt b (i + 3)]

/-- The ASCII bytes of `"data"`, `"RIFF"` and `"WAVE"`. -/
def dataId : List Nat := [100, 97, 116, 97]

def riffId : List Nat := [82, 73, 70, 70]

def waveId : List Nat := [87, 65, 86, 69]

/-- The chunk-scan loop shared by `quickCheck` and `_parseWavFile`: starting
at `offset`, while `offset < bound`, read the chunk id and size; stop at a
`data` chunk (returning its payload offset and size) or skip
`8 + chunkSize` bytes.  The recursion is driven by fuel instantiated to
`bound`: each iteration advances `offset` by at least 8 and runs only while
`offset < bound`, so at most `bound/8 + 1 ≤ bound` iterations occur (none
when `bound = 0`) and the fuel is never exhausted. -/
def findDataAux (b : ByteBuf) (bound : Nat) : Nat → Nat → Option (Nat × Nat)
  | 0, _ => none
  | fuel + 1, offset =>
    if offset < bound then
      if chunkIdAt b offset = dataId then
        some (offset + 8, readUInt32LE b (offset + 4))
      else
        findDataAux b bound fuel (offset + 8 + readUInt32LE b (offset + 4))
    else none

def findData (b : ByteBuf) (bound offset : Nat) : Option (Nat × Nat) :=
  findDataAux b bound bound offset

/-- The bound of `quickCheck`'s scan loop:
`offset < Math.min(audioBuffer.length - 8, 200)`. -/
def quickBound (b : ByteBuf) : Nat := min (b.length - 8) 200

/-- The sample-extraction loop shared by `quickCheck` and `_parseWavFile`:
samples at `i, i+2, …` while `i < stop`, each `readInt16LE(i) / 32768`.
Fuel-driven like `findDataAux`; callers pass fuel at least
`(stop - start)/2 + 1`, so it is never exhausted. -/
def samplesAux (b : ByteBuf) (stop : Nat) : Nat → Nat → List ℚ
  | 0, _ => []
  | fuel + 1, i =>
    if i < stop then
      ((readInt16LE b i : ℚ) / 32768) :: samplesAux b stop fuel (i + 2)
    else []

/-- `quickCheck`'s sample window: `sampleCount = min(256, (len - off)/2)`
(a possibly fractional JavaScript number, so `sampleCount * 2`
is exactly `min(512, len - off)`), read while
`i < off + sampleCount*2 && i < len - 1`. -/
def quickSamples (b : ByteBuf) (off : Nat) : List ℚ :=
  samplesAux b (min (off + min 512 (b.length - off)) (b.length - 1)) 256 off

/-- `quickCheck`'s divisor `sampleCount` (exact, possibly fractional). -/
def quickSampleCount (b : ByteBuf) (off : Nat) : ℚ :=
  min 256 (((b.length - off : Nat) : ℚ) / 2)

/-- The square of `quickCheck`'s `quickEnergy = sqrt(sumSquares/sampleCount)`. -/
def quickEnergySq (b : ByteBuf) (off : Nat) : ℚ :=
  ((quickSamples b off).foldl (fun a q => a + q * q) 0) / quickSampleCount b off

/-- The VAD thresholds (`this.energyThreshold`, `this.minSpeechDuration`,
`this.silenceThreshold`). -/
structure VadConfig where
  energyThreshold : ℚ
  minSpeechDuration : ℚ
  silenceThreshold : ℚ
  deriving Repr, DecidableEq

/-- The constructor defaults: 0.003, 200 ms, 0.001. -/
def vadDefaults : VadConfig :=
  { energyThreshold := 3 / 1000, minSpeechDuration := 200,
    silenceThreshold := 1 / 1000 }

/-- A VAD verdict as the pipeline observes it: `hasVoice`, `confidence`
(`none` marks the one branch — the full analysis — whose JavaScript value
is an irrational `min(sqrt(energySq)/threshold,1)`-derived number that no
claim inspects), and `reason`. -/
structure AResult where
  hasVoice : Bool
  confidence : Option ℚ
  reason : String
  deriving Repr, DecidableEq

/-- Result of `quickCheck`: a definitive verdict, or
`{needsFullVAD:true}` carrying the computed energy (as its square). -/
inductive QuickResult where
  | res (r : AResult)
  | needsFull (energySq : Option ℚ)
  deriving Repr, DecidableEq

/-- An audio file as the VAD sees it: its bytes (`none` when
`fs.existsSync` is false) and whether its extension is `.wav`.
`quickCheck`'s `readFileSync(path, {start:0} and {end:1024})` reads the whole
file (those options belong to streams and are ignored by `readFileSync`),
so both paths see the same buffer. -/
structure AudioFile where
  content : Option ByteBuf
  extIsWav : Bool

/-- `VADService.quickCheck(audioPath)`.  The `catch` branch
(`{needsFullVAD:true}` with no energy) is unreachable in the embedding: all
buffer reads in this path carry the same in-bounds guards as the code.  The
`energy` field the code attaches to the high/low verdicts is not carried. -/
def quickCheck (cfg : VadConfig) (f : AudioFile) : QuickResult :=
  match f.content with
  | none => .res ⟨false, some 0, "file_not_found"⟩
  | some b =>
    if !f.extIsWav then .res ⟨true, some (1/2), "non_wav_format"⟩
    else
      match findData b (quickBound b) 12 with
      | none => .res ⟨true, some (1/2), "quick_check_fallback"⟩
      | some (off, _) =>
        let e2 := quickEnergySq b off
        if (2 * cfg.energyThreshold) ^ 2 < e2 then
          .res ⟨true, some (4/5), "quick_check_high_energy"⟩
        else if e2 < cfg.silenceThreshold ^ 2 then
          .res ⟨false, some (1/5), "quick_check_low_energy"⟩
        else .needsFull (some e2)

/-- Output of `_parseWavFile`. -/
structure AudioData where
  samples : List ℚ
  sampleRate : Nat
  duration : ℚ
  deriving Repr, DecidableEq

/-- `VADService._parseWavFile(buffer)`: RIFF/WAVE header check, `data`
chunk scan bounded by `buffer.length - 8`, 16-bit PCM extraction while
`i < dataOffset + dataSize && i < buffer.length - 1`, then sample rate from
byte 24.  `buffer.readUInt32LE(24)` throws (caught, `null`) when the buffer
is shorter than 28 bytes, hence the explicit guard.  A sample rate of 0
(division by zero, `Infinity` duration in JS) is outside the model;
every theorem below instantiates files with a positive rate. -/
def parseWav (b : ByteBuf) : Option AudioData :=
  if chunkIdAt b 0 ≠ riffId ∨ chunkIdAt b 8 ≠ waveId then none
  else
    match findData b (b.length - 8) 12 with
    | none => none
    | some (off, size) =>
      if b.length < 28 then none
      else
        let samples := samplesAux b (min (off + size) (b.length - 1)) b.length off
        let rate := readUInt32LE b 24
        some { samples := samples, sampleRate := rate,
               duration := (samples.length : ℚ) * 1000 / (rate : ℚ) }

/-- `_calculateEnergy(samples)^2 = sumSquares / samples.length`. -/
def energySqOf (samples : List ℚ) : ℚ :=
  (samples.foldl (fun a q => a + q * q) 0) / (samples.length : ℚ)

/-- The crossing count of `_calculateZeroCrossingRate`. -/
def crossings : List ℚ → Nat
  | [] => 0
  | [_] => 0
  | a :: bq :: rest =>
    (if (0 ≤ bq ∧ a < 0) ∨ (bq < 0 ∧ 0 ≤ a) then 1 else 0) +
      crossings (bq :: rest)

/-- `_calculateZeroCrossingRate(samples) = crossings / samples.length`. -/
def zcrOf (samples : List ℚ) : ℚ :=
  (crossings samples : ℚ) / (samples.length : ℚ)

/-- The decision block of `_analyzeVoiceActivity` on the byte-level path,
with energy comparisons on squares.  `confidence` is reported as `none`
(its JavaScript value involves the square root; no claim inspects it on
this path) — `hasVoice` and `reason` are exact. -/
def analyzeActivitySq (cfg : VadConfig) (samples : List ℚ) (duration : ℚ) :
    AResult :=
  if samples = [] then ⟨false, some 0, "empty_audio"⟩
  else
    let e2 := energySqOf samples
    let zcr := zcrOf samples
    let hv1 : Bool := decide (cfg.energyThreshold ^ 2 < e2)
    let r1 : String := if cfg.energyThreshold ^ 2 < e2 then "energy_detected" else ""
    let r2 : String :=
      if 1/20 < zcr ∧ zcr < 3/10 then
        (if r1 = "" then "zcr_match" else r1 ++ ",zcr_match")
      else r1
    let hv2 : Bool := if (cfg.energyThreshold ^ 2 < e2) ∧
        duration < cfg.minSpeechDuration then false else hv1
    let r3 : String := if (cfg.energyThreshold ^ 2 < e2) ∧
        duration < cfg.minSpeechDuration then "too_short" else r2
    let hv3 : Bool := if e2 < cfg.silenceThreshold ^ 2 ∧ duration < 1000
      then false else hv2
    let r4 : String := if e2 < cfg.silenceThreshold ^ 2 ∧ duration < 1000
      then "silence_detected" else r3
    ⟨hv3, none, if r4 = "" then "no_voice" else r4⟩

/-- `VADService.analyzeAudio(audioPath, useQuickCheck)`.  A missing file
throws before anything else and the outer `catch` returns the
`error_fallback` verdict; a definitive quick verdict is returned as is;
otherwise the non-WAV check, the full parse (`parse_error` on `null`) and
`_analyzeVoiceActivity` run. -/
def analyzeAudio (cfg : VadConfig) (f : AudioFile) (useQuickCheck : Bool) :
    AResult :=
  match f.content with
  | none => ⟨true, some (1/2), "error_fallback"⟩
  | some b =>
    let quick : Option AResult :=
      if useQuickCheck then
        match quickCheck cfg f with
        | .res r => some r
        | .needsFull _ => none
      else none
    match quick with
    | some r => r
    | none =>
      if !f.extIsWav then ⟨true, some (1/2), "non_wav_format"⟩
      else
        match parseWav b with
        | none => ⟨true, some (1/2), "parse_error"⟩
        | some ad => analyzeActivitySq cfg ad.samples ad.duration

/-- The VAD gate of `AudioProcessor._processChunkInternal`: when VAD is
enabled and the verdict is no-voice, the chunk is skipped and
`_performTranscription` is never reached; otherwise transcription runs. -/
def transcriptionInvoked (cfg : VadConfig) (vadEnabled useQuickCheck : Bool)
    (f : AudioFile) : Bool :=
  if vadEnabled then (analyzeAudio cfg f useQuickCheck).hasVoice else true

theorem analyzeAudio_missing (cfg : VadConfig) (w useQ : Bool) :
    analyzeAudio cfg ⟨none, w⟩ useQ = ⟨true, some (1/2), "error_fallback"⟩ :=
  rfl

theorem quickCheck_of_scan_none {cfg : VadConfig} {b : ByteBuf}
    (hq : findData b (quickBound b) 12 = none) :
    quickCheck cfg ⟨some b, true⟩ =
      .res ⟨true, some (1/2), "quick_check_fallback"⟩ := by
  unfold quickCheck
  simp [hq]

theorem analyzeAudio_of_quick_res {cfg : VadConfig} {b : ByteBuf} {r : AResult}
    (h : quickCheck cfg ⟨some b, true⟩ = .res r) :
    analyzeAudio cfg ⟨some b, true⟩ true = r := by
  unfold analyzeAudio
  simp [h]

theorem analyzeAudio_noquick_of_parse_none {cfg : VadConfig} {b : ByteBuf}
    (hp : parseWav b = none) :
    analyzeAudio cfg ⟨some b, true⟩ false = ⟨true, some (1/2), "parse_error"⟩ := by
  unfold analyzeAudio
  simp [hp]

theorem analyzeAudio_noquick_of_parse_some {cfg : VadConfig} {b : ByteBuf}
    {ad : AudioData} (hp : parseWav b = some ad) :
    analyzeAudio cfg ⟨some b, true⟩ false =
      analyzeActivitySq cfg ad.samples ad.duration := by
  unfold analyzeAudio
  simp [hp]

/-! ### Claim C4 -/

/-- C4 (amended): a missing audio file makes `analyzeAudio` return
`hasVoice:true, confidence:0.5` (`error_fallback`).  For an unparsable WAV
whose quick scan finds no `data` chunk, `quickCheck` returns
`hasVoice:true, confidence:0.5, reason:"quick_check_fallback"` (not
`needsFullVAD`), and `analyzeAudio` — with or without the quick check —
returns `hasVoice:true, confidence:0.5`, so the segment reaches
transcription.  (When the quick scan of an unparsable WAV does find a
`data` chunk, the quick energy verdict stands instead; see the
counterexample.) -/
theorem vad_fails_open (cfg : VadConfig) (b : ByteBuf)
    (hq : findData b (quickBound b) 12 = none)
    (hp : parseWav b = none) :
    analyzeAudio cfg ⟨none, true⟩ true = ⟨true, some (1/2), "error_fallback"⟩ ∧
    analyzeAudio cfg ⟨none, true⟩ false = ⟨true, some (1/2), "error_fallback"⟩ ∧
    quickCheck cfg ⟨some b, true⟩ =
      .res ⟨true, some (1/2), "quick_check_fallback"⟩ ∧
    analyzeAudio cfg ⟨some b, true⟩ true =
      ⟨true, some (1/2), "quick_check_fallback"⟩ ∧
    analyzeAudio cfg ⟨some b, true⟩ false = ⟨true, some (1/2), "parse_error"⟩ := by
  have hqc := @quickCheck_of_scan_none cfg b hq
  exact ⟨analyzeAudio_missing cfg true true, analyzeAudio_missing cfg true false,
    hqc, analyzeAudio_of_quick_res hqc, analyzeAudio_noquick_of_parse_none hp⟩

/-- A 30-byte all-zero buffer: not a RIFF file, and its quick scan (two
zero-sized chunks, then past the 22-byte bound) finds no `data` chunk. -/
def zeros30 : ByteBuf := List.replicate 30 0

theorem vad_fails_open_witness :
    findData zeros30 (quickBound zeros30) 12 = none ∧
    parseWav zeros30 = none ∧
    analyzeAudio vadDefaults ⟨some zeros30, true⟩ true =
      ⟨true, some (1/2), "quick_check_fallback"⟩ ∧
    analyzeAudio vadDefaults ⟨some zeros30, true⟩ false =
      ⟨true, some (1/2), "parse_error"⟩ := by
  have h := vad_fails_open vadDefaults zeros30 (by decide) (by decide)
  exact ⟨by decide, by decide, h.2.2.2.1, h.2.2.2.2⟩

/-- A 24-byte buffer with a junk (non-RIFF) header that nevertheless
contains a `data` chunk id at offset 12 followed by silent samples.
`_parseWavFile` rejects it, so it is an unparsable WAV. -/
def junk24 : ByteBuf :=
  [74, 85, 78, 75, 0, 0, 0, 0, 74, 85, 78, 75,
   100, 97, 116, 97, 4, 0, 0, 0, 0, 0, 0, 0]

/-- C4 counterexample: `junk24` is an unparsable WAV
(`_parseWavFile` returns `null`), yet with the quick check enabled (the
default) `analyzeAudio` returns `hasVoice:false` — the quick scan finds its
`data` chunk, measures zero energy, and the segment is silently discarded
instead of reaching transcription with `hasVoice:true, confidence:0.5` as
the claim states. -/
theorem vad_fails_open_cex :
    parseWav junk24 = none ∧
    analyzeAudio vadDefaults ⟨some junk24, true⟩ true =
      ⟨false, some (1/5), "quick_check_low_energy"⟩ ∧
    transcriptionInvoked vadDefaults true true ⟨some junk24, true⟩ = false := by
  have hfind : findData junk24 (quickBound junk24) 12 = some (20, 4) := by decide
  have he2 : quickEnergySq junk24 20 = 0 := by
    have h0 : quickEnergySq junk24 20 =
        ((0 + (readInt16LE junk24 20 : ℚ) / 32768 *
            ((readInt16LE junk24 20 : ℚ) / 32768)) +
          (readInt16LE junk24 22 : ℚ) / 32768 *
            ((readInt16LE junk24 22 : ℚ) / 32768)) /
          quickSampleCount junk24 20 := rfl
    rw [h0, show readInt16LE junk24 20 = 0 from by decide,
      show readInt16LE junk24 22 = 0 from by decide]
    norm_num
  have hqc : quickCheck vadDefaults ⟨some junk24, true⟩ =
      .res ⟨false, some (1/5), "quick_check_low_energy"⟩ := by
    unfold quickCheck
    norm_num [hfind, he2, vadDefaults]
  refine ⟨by decide, analyzeAudio_of_quick_res hqc, ?_⟩
  unfold transcriptionInvoked
  rw [if_pos rfl, analyzeAudio_of_quick_res hqc]

/-! ### Claim C5 -/

theorem samplesAux_length_le (b : ByteBuf) (stop : Nat) :
    ∀ (fuel i : Nat), (samplesAux b stop fuel i).length ≤ fuel := by
  intro fuel
  induction fuel with
  | zero => intro i; simp [samplesAux]
  | succ n ih =>
      intro i
      unfold samplesAux
      split
      · simpa using Nat.succ_le_succ (ih (i + 2))
      · simp

/-- C5: for every segment whose quick scan finds the `data` chunk,
`quickCheck` computes RMS energy over at most the first 256 samples and
returns the high-energy verdict exactly when that energy exceeds
`2×energyThreshold`, otherwise the low-energy verdict exactly when it is
below `silenceThreshold`, and otherwise `{needsFullVAD:true}` with the
computed energy.  Energy comparisons are stated on squares, which is
exactly equivalent over the reals for non-negative thresholds. -/
theorem quick_check_classification (cfg : VadConfig) (b : ByteBuf)
    (off sz : Nat) (hfind : findData b (quickBound b) 12 = some (off, sz)) :
    (quickSamples b off).length ≤ 256 ∧
    (quickCheck cfg ⟨some b, true⟩ =
        .res ⟨true, some (4/5), "quick_check_high_energy"⟩ ↔
      (2 * cfg.energyThreshold) ^ 2 < quickEnergySq b off) ∧
    (quickCheck cfg ⟨some b, true⟩ =
        .res ⟨false, some (1/5), "quick_check_low_energy"⟩ ↔
      (¬ (2 * cfg.energyThreshold) ^ 2 < quickEnergySq b off ∧
        quickEnergySq b off < cfg.silenceThreshold ^ 2)) ∧
    (quickCheck cfg ⟨some b, true⟩ = .needsFull (some (quickEnergySq b off)) ↔
      (¬ (2 * cfg.energyThreshold) ^ 2 < quickEnergySq b off ∧
        ¬ quickEnergySq b off < cfg.silenceThreshold ^ 2)) := by
  have hrw : quickCheck cfg ⟨some b, true⟩ =
      (if (2 * cfg.energyThreshold) ^ 2 < quickEnergySq b off then
        .res ⟨true, some (4/5), "quick_check_high_energy"⟩
      else if quickEnergySq b off < cfg.silenceThreshold ^ 2 then
        .res ⟨false, some (1/5), "quick_check_low_energy"⟩
      else .needsFull (some (quickEnergySq b off))) := by
    unfold quickCheck
    simp [hfind]
  refine ⟨samplesAux_length_le b _ 256 off, ?_⟩
  rw [hrw]
  by_cases h1 : (2 * cfg.energyThreshold) ^ 2 < quickEnergySq b off
  · rw [if_pos h1]
    refine ⟨?_, ?_, ?_⟩ <;> simp [h1]
  · rw [if_neg h1]
    by_cases h2 : quickEnergySq b off < cfg.silenceThreshold ^ 2
    · rw [if_pos h2]
      refine ⟨?_, ?_, ?_⟩ <;> simp [h1, h2]
    · rw [if_neg h2]
      refine ⟨?_, ?_, ?_⟩ <;> simp [h1, h2]

/-- A minimal silent WAV-shaped buffer for the quick check: `data` chunk at
offset 12, two zero samples. -/
def quietWav : ByteBuf :=
  [82, 73, 70, 70, 0, 0, 0, 0, 87, 65, 86, 69,
   100, 97, 116, 97, 4, 0, 0, 0, 0, 0, 0, 0]

theorem quietWav_energySq : quickEnergySq quietWav 20 = 0 := by
  have h0 : quickEnergySq quietWav 20 =
      ((0 + (readInt16LE quietWav 20 : ℚ) / 32768 *
          ((readInt16LE quietWav 20 : ℚ) / 32768)) +
        (readInt16LE quietWav 22 : ℚ) / 32768 *
          ((readInt16LE quietWav 22 : ℚ) / 32768)) /
        quickSampleCount quietWav 20 := rfl
  rw [h0, show readInt16LE quietWav 20 = 0 from by decide,
    show readInt16LE quietWav 22 = 0 from by decide]
  norm_num

theorem quick_check_classification_witness :
    findData quietWav (quickBound quietWav) 12 = some (20, 4) ∧
    quickCheck vadDefaults ⟨some quietWav, true⟩ =
      .res ⟨false, some (1/5), "quick_check_low_energy"⟩ := by
  have hfind : findData quietWav (quickBound quietWav) 12 = some (20, 4) := by
    decide
  refine ⟨hfind, ?_⟩
  exact (quick_check_classification vadDefaults quietWav 20 4 hfind).2.2.1.mpr
    (by rw [quietWav_energySq]; norm_num [vadDefaults])

/-! ### Claim C6 -/

/-- The verdict of `_analyzeVoiceActivity` with its exact confidence. -/
structure VadVerdict where
  hasVoice : Bool
  confidence : ℚ
  reason : String
  deriving Repr, DecidableEq

/-- The decision block of `_analyzeVoiceActivity` as a function of the
computed RMS energy (the exact real value the code takes the square root
for), zero-crossing rate, duration (ms) and sample count — the quantities
claim C6 ranges over.  Faithful staging: energy gate (setting confidence
only when voice is detected), ZCR bump, `too_short` override, then the
`silence_detected` override, with the final `min(confidence, 1)` cap. -/
def vadDecision (cfg : VadConfig) (energy zcr duration : ℚ) (n : Nat) :
    VadVerdict :=
  if n = 0 then ⟨false, 0, "empty_audio"⟩
  else
    let hv1 : Bool := decide (cfg.energyThreshold < energy)
    let c1 : ℚ := if cfg.energyThreshold < energy then
      min (energy / cfg.energyThreshold) 1 else 0
    let r1 : String := if cfg.energyThreshold < energy then
      "energy_detected" else ""
    let c2 : ℚ := if 1/20 < zcr ∧ zcr < 3/10 then min (c1 + 1/5) 1 else c1
    let r2 : String := if 1/20 < zcr ∧ zcr < 3/10 then
      (if r1 = "" then "zcr_match" else r1 ++ ",zcr_match") else r1
    let hv2 : Bool := if cfg.energyThreshold < energy ∧
      duration < cfg.minSpeechDuration then false else hv1
    let c3 : ℚ := if cfg.energyThreshold < energy ∧
      duration < cfg.minSpeechDuration then 0 else c2
    let r3 : String := if cfg.energyThreshold < energy ∧
      duration < cfg.minSpeechDuration then "too_short" else r2
    let hv3 : Bool := if energy < cfg.silenceThreshold ∧ duration < 1000
      then false else hv2
    let c4 : ℚ := if energy < cfg.silenceThreshold ∧ duration < 1000
      then 0 else c3
    let r4 : String := if energy < cfg.silenceThreshold ∧ duration < 1000
      then "silence_detected" else r3
    ⟨hv3, min c4 1, if r4 = "" then "no_voice" else r4⟩

/-- C6 (amended): for a non-empty sample array the policy is: hasVoice is
`energy > energyThreshold`, with confidence `min(energy/energyThreshold,1)`
when voice is detected and 0 otherwise; confidence is then bumped by 0.2
(capped at 1) when `0.05 < zcr < 0.3`; hasVoice and confidence are
overridden to `false`/0 with reason `"too_short"` when the energy gate held
and duration is below `minSpeechDuration`; finally both are overridden to
`false`/0 with reason `"silence_detected"` when `energy < silenceThreshold`
and duration < 1000 ms. -/
theorem vad_decision_policy (cfg : VadConfig) (energy zcr duration : ℚ)
    (n : Nat) (hn : n ≠ 0) :
    ((vadDecision cfg energy zcr duration n).hasVoice = true ↔
      (cfg.energyThreshold < energy ∧ ¬ duration < cfg.minSpeechDuration ∧
        ¬ (energy < cfg.silenceThreshold ∧ duration < 1000))) ∧
    (vadDecision cfg energy zcr duration n).confidence =
      (if (energy < cfg.silenceThreshold ∧ duration < 1000) ∨
          (cfg.energyThreshold < energy ∧ duration < cfg.minSpeechDuration)
        then 0
        else if 1/20 < zcr ∧ zcr < 3/10 then
          min ((if cfg.energyThreshold < energy then
            min (energy / cfg.energyThreshold) 1 else 0) + 1/5) 1
        else if cfg.energyThreshold < energy then
          min (energy / cfg.energyThreshold) 1 else 0) ∧
    ((energy < cfg.silenceThreshold ∧ duration < 1000) →
      (vadDecision cfg energy zcr duration n).reason = "silence_detected") ∧
    (¬ (energy < cfg.silenceThreshold ∧ duration < 1000) →
      cfg.energyThreshold < energy → duration < cfg.minSpeechDuration →
      (vadDecision cfg energy zcr duration n).reason = "too_short") := by
  unfold vadDecision
  rw [if_neg hn]
  by_cases hE : cfg.energyThreshold < energy <;>
    by_cases hz : 1/20 < zcr ∧ zcr < 3/10 <;>
      by_cases hts : duration < cfg.minSpeechDuration <;>
        by_cases hsil : energy < cfg.silenceThreshold ∧ duration < 1000 <;>
          simp [hE, hz, hts, hsil, min_eq_left, min_le_right]
  all_goals
    first
    | exact (min_eq_left (min_le_right _ _)).symm
    | exact ⟨fun h => absurd h.1 hE, fun h => absurd h.2.1 hts⟩
    | (split_ifs <;> first | exact min_le_right _ _ | norm_num)

theorem vad_decision_policy_witness :
    (vadDecision vadDefaults (1/100) (1/10) 500 5).hasVoice = true :=
  (vad_decision_policy vadDefaults (1/100) (1/10) 500 5 (by decide)).1.mpr
    ⟨by norm_num [vadDefaults], by norm_num [vadDefaults],
      by norm_num [vadDefaults]⟩

/-- C6 counterexample: with the default thresholds, energy 0.0015 (below
`energyThreshold = 0.003`), zcr 0, duration 2000 ms, the code reports
confidence 0, not `min(energy/energyThreshold, 1) = 0.5` as the claim's
unconditional confidence formula states. -/
theorem vad_decision_policy_cex :
    (vadDecision vadDefaults (3/2000) 0 2000 1).confidence ≠
      min ((3/2000) / vadDefaults.energyThreshold) 1 := by
  have h : (vadDecision vadDefaults (3/2000) 0 2000 1).confidence = 0 := by
    unfold vadDecision
    norm_num [vadDefaults]
  rw [h, show ((3/2000 : ℚ)) / vadDefaults.energyThreshold = 1/2 from by
    norm_num [vadDefaults]]
  rw [min_eq_left (by norm_num)]
  norm_num

/-! ### Claim C9 -/

theorem foldl_sq_of_zeros :
    ∀ (l : List ℚ), (∀ q ∈ l, q = 0) → ∀ a : ℚ,
      l.foldl (fun a q => a + q * q) a = a := by
  intro l
  induction l with
  | nil => intro _ a; rfl
  | cons x xs ih =>
      intro h a
      have hx : x = 0 := h x (List.mem_cons_self x xs)
      simp only [List.foldl_cons, hx, mul_zero, add_zero]
      exact ih (fun q hq => h q (List.mem_cons_of_mem x hq)) a

theorem crossings_of_zeros :
    ∀ (l : List ℚ), (∀ q ∈ l, q = 0) → crossings l = 0 := by
  intro l
  induction l with
  | nil => intro _; rfl
  | cons x xs ih =>
      intro h
      cases xs with
      | nil => rfl
      | cons y ys =>
          have hx : x = 0 := h x (by simp)
          have hy : y = 0 := h y (by simp)
          have hcond : ¬ ((0 ≤ y ∧ x < 0) ∨ (y < 0 ∧ 0 ≤ x)) := by
            rw [hx, hy]
            norm_num
          show (if (0 ≤ y ∧ x < 0) ∨ (y < 0 ∧ 0 ≤ x) then 1 else 0) +
            crossings (y :: ys) = 0
          rw [if_neg hcond, Nat.zero_add]
          exact ih (fun q hq => h q (List.mem_cons_of_mem x hq))

theorem quickCheck_of_scan_zero (cfg : VadConfig) (b : ByteBuf) (off sz : Nat)
    (hq : findData b (quickBound b) 12 = some (off, sz))
    (hz : ∀ q ∈ quickSamples b off, q = 0)
    (hSt : 0 < cfg.silenceThreshold) :
    quickCheck cfg ⟨some b, true⟩ =
      .res ⟨false, some (1/5), "quick_check_low_energy"⟩ := by
  have he : quickEnergySq b off = 0 := by
    rw [quickEnergySq, foldl_sq_of_zeros _ hz 0]
    exact zero_div _
  have h1 : ¬ (2 * cfg.energyThreshold) ^ 2 < quickEnergySq b off := by
    rw [he]
    exact not_lt.mpr (sq_nonneg _)
  have h3 : quickEnergySq b off < cfg.silenceThreshold ^ 2 := by
    rw [he]
    exact pow_pos hSt 2
  unfold quickCheck
  simp [hq, h1, h3]

theorem analyzeActivitySq_of_zeros (cfg : VadConfig) (samples : List ℚ)
    (duration : ℚ) (hz : ∀ q ∈ samples, q = 0) (hne : samples ≠ [])
    (hd : duration < 1000) (hSt : 0 < cfg.silenceThreshold) :
    analyzeActivitySq cfg samples duration = ⟨false, none, "silence_detected"⟩ := by
  have he : energySqOf samples = 0 := by
    rw [energySqOf, foldl_sq_of_zeros _ hz 0]
    exact zero_div _
  have hzc : zcrOf samples = 0 := by
    rw [zcrOf, crossings_of_zeros _ hz]
    simp
  have h1 : ¬ cfg.energyThreshold ^ 2 < energySqOf samples := by
    rw [he]
    exact not_lt.mpr (sq_nonneg _)
  have h2 : ¬ ((1:ℚ)/20 < zcrOf samples ∧ zcrOf samples < 3/10) := by
    rw [hzc]
    norm_num
  have h3 : energySqOf samples < cfg.silenceThreshold ^ 2 := by
    rw [he]
    exact pow_pos hSt 2
  unfold analyzeActivitySq
  rw [if_neg hne]
  simp [h1, h2, h3, hd]

/-- C9 (amended): for a short (< 1 s) all-silent WAV segment (data chunk
found by both scans, all decoded samples zero, e.g. the 50 ms segment of
the witness) processed with VAD enabled and a positive `silenceThreshold`,
the verdict is `hasVoice:false` — with reason `"quick_check_low_energy"`
when the quick check is enabled (the default) and `"silence_detected"`
when it is disabled — and the transcription backend is never invoked. -/
theorem vad_silent_segment (cfg : VadConfig) (b : ByteBuf) (off sz : Nat)
    (ad : AudioData) (hSt : 0 < cfg.silenceThreshold)
    (hq : findData b (quickBound b) 12 = some (off, sz))
    (hzq : ∀ q ∈ quickSamples b off, q = 0)
    (hp : parseWav b = some ad)
    (hzf : ∀ q ∈ ad.samples, q = 0)
    (hne : ad.samples ≠ [])
    (hd : ad.duration < 1000) :
    analyzeAudio cfg ⟨some b, true⟩ true =
      ⟨false, some (1/5), "quick_check_low_energy"⟩ ∧
    analyzeAudio cfg ⟨some b, true⟩ false = ⟨false, none, "silence_detected"⟩ ∧
    transcriptionInvoked cfg true true ⟨some b, true⟩ = false ∧
    transcriptionInvoked cfg true false ⟨some b, true⟩ = false := by
  have hqc := quickCheck_of_scan_zero cfg b off sz hq hzq hSt
  have h1 := analyzeAudio_of_quick_res hqc
  have h2 := (analyzeAudio_noquick_of_parse_some hp).trans
    (analyzeActivitySq_of_zeros cfg ad.samples ad.duration hzf hne hd hSt)
  refine ⟨h1, h2, ?_, ?_⟩
  · unfold transcriptionInvoked
    rw [if_pos rfl, h1]
  · unfold transcriptionInvoked
    rw [if_pos rfl, h2]

/-- A canonical 54-byte, 50 ms, all-silent WAV: RIFF/WAVE header, `fmt `
chunk (sample rate 100 Hz), `data` chunk with five zero 16-bit samples. -/
def silentWav54 : ByteBuf :=
  [82, 73, 70, 70, 46, 0, 0, 0, 87, 65, 86, 69,
   102, 109, 116, 32, 16, 0, 0, 0, 1, 0, 1, 0, 100, 0, 0, 0,
   200, 0, 0, 0, 2, 0, 16, 0,
   100, 97, 116, 97, 10, 0, 0, 0, 0, 0, 0, 0, 0, 0, 0, 0, 0, 0]

theorem silentWav54_parse : parseWav silentWav54 = some ⟨[0, 0, 0, 0, 0], 100, 50⟩ := by
  have h0 : parseWav silentWav54 = some
      ⟨[(readInt16LE silentWav54 44 : ℚ) / 32768,
        (readInt16LE silentWav54 46 : ℚ) / 32768,
        (readInt16LE silentWav54 48 : ℚ) / 32768,
        (readInt16LE silentWav54 50 : ℚ) / 32768,
        (readInt16LE silentWav54 52 : ℚ) / 32768], 100,
        ((5 : ℕ) : ℚ) * 1000 / ((100 : ℕ) : ℚ)⟩ := rfl
  rw [h0, show readInt16LE silentWav54 44 = 0 from by decide,
    show readInt16LE silentWav54 46 = 0 from by decide,
    show readInt16LE silentWav54 48 = 0 from by decide,
    show readInt16LE silentWav54 50 = 0 from by decide,
    show readInt16LE silentWav54 52 = 0 from by decide]
  norm_num

theorem vad_silent_segment_witness :
    analyzeAudio vadDefaults ⟨some silentWav54, true⟩ true =
      ⟨false, some (1/5), "quick_check_low_energy"⟩ ∧
    analyzeAudio vadDefaults ⟨some silentWav54, true⟩ false =
      ⟨false, none, "silence_detected"⟩ ∧
    transcriptionInvoked vadDefaults true true ⟨some silentWav54, true⟩ = false ∧
    transcriptionInvoked vadDefaults true false ⟨some silentWav54, true⟩ = false := by
  have hzq : ∀ q ∈ quickSamples silentWav54 44, q = 0 := by
    have hl : quickSamples silentWav54 44 =
        [(readInt16LE silentWav54 44 : ℚ) / 32768,
         (readInt16LE silentWav54 46 : ℚ) / 32768,
         (readInt16LE silentWav54 48 : ℚ) / 32768,
         (readInt16LE silentWav54 50 : ℚ) / 32768,
         (readInt16LE silentWav54 52 : ℚ) / 32768] := rfl
    rw [hl, show readInt16LE silentWav54 44 = 0 from by decide,
      show readInt16LE silentWav54 46 = 0 from by decide,
      show readInt16LE silentWav54 48 = 0 from by decide,
      show readInt16LE silentWav54 50 = 0 from by decide,
      show readInt16LE silentWav54 52 = 0 from by decide]
    norm_num
  exact vad_silent_segment vadDefaults silentWav54 44 10 ⟨[0, 0, 0, 0, 0], 100, 50⟩
    (by norm_num [vadDefaults]) (by decide) hzq silentWav54_parse
    (by norm_num) (by simp) (by norm_num)

/-- C9 counterexample: for the 50 ms all-silent WAV `silentWav54` in the
default configuration (quick check enabled), the VAD verdict's reason is
`"quick_check_low_energy"` — not `"too_short"` or `"silence_detected"` as
the claim states (the quick energy gate decides before the full analysis
that would produce those reasons). -/
theorem vad_silent_segment_cex :
    (analyzeAudio vadDefaults ⟨some silentWav54, true⟩ true).reason =
      "quick_check_low_energy" ∧
    "quick_check_low_energy" ≠ "too_short" ∧
    "quick_check_low_energy" ≠ "silence_detected" := by
  have hzq : ∀ q ∈ quickSamples silentWav54 44, q = 0 := by
    have hl : quickSamples silentWav54 44 =
        [(readInt16LE silentWav54 44 : ℚ) / 32768,
         (readInt16LE silentWav54 46 : ℚ) / 32768,
         (readInt16LE silentWav54 48 : ℚ) / 32768,
         (readInt16LE silentWav54 50 : ℚ) / 32768,
         (readInt16LE silentWav54 52 : ℚ) / 32768] := rfl
    rw [hl, show readInt16LE silentWav54 44 = 0 from by decide,
      show readInt16LE silentWav54 46 = 0 from by decide,
      show readInt16LE silentWav54 48 = 0 from by decide,
      show readInt16LE silentWav54 50 = 0 from by decide,
      show readInt16LE silentWav54 52 = 0 from by decide]
    norm_num
  have hqc := quickCheck_of_scan_zero vadDefaults silentWav54 44 10
    (by decide) hzq (by norm_num [vadDefaults])
  refine ⟨?_, by decide, by decide⟩
  rw [analyzeAudio_of_quick_res hqc]

end CustomAITranslator
